import Mathlib

/-!
Verification of the album reconciliation engine of HugoPhotoSwipe
(src/hugophotoswipe/album.py) against its natural-language specification.

The Python module is shallowly embedded below.  Pure data is translated to
Lean structures; the filesystem and the external Photo collaborator are
represented by explicit state records (`FS`, `DState`, `CleanFS`) that the
operations read and transform.  Operations of `Album` (`clean`, `dump`,
`load`, `update`, `_backup`) become total Lean functions over these states;
Python exceptions that the source raises to its caller become `Except`
results, and exceptions that the source catches are represented by outcome
fields of `FS` consulted at the catch sites.

External collaborators (the Photo class, YAML serialization, the settings
singleton) are out of scope of the source file; the narrow interface the
album code consumes from them is modelled from the spec where noted.
-/

namespace HugoPhotoSwipe

/-- Lexicographic comparison of character lists, modelling Python string
comparison (code-point lexicographic) used by `missing.sort()` and
`sorted(...)` in album.py.  Written structurally so that it evaluates by
kernel reduction. -/
def charListLe : List Char → List Char → Bool
  | [], _ => true
  | _ :: _, [] => false
  | a :: as, b :: bs => if a < b then true else if a = b then charListLe as bs else false

/-- Python string less-or-equal, on the character content of the strings. -/
def strLe (s t : String) : Bool := charListLe s.data t.data

/-- The ordering used to sort lists of strings, as a decidable relation. -/
def sLe (s t : String) : Prop := strLe s t = true

instance : DecidableRel sLe := fun s t => instDecidableEqBool (strLe s t) true

/-- Ordering of property items, modelling Python `sorted(self.properties.items())`.
The items of a Python dict have pairwise distinct keys, so the tuple
comparison performed by `sorted` only ever compares the keys; the sort is
therefore a stable sort by key, which is what we embed. -/
def pLe (x y : String × String) : Prop := sLe x.1 y.1

instance : DecidableRel pLe := fun x y => instDecidableEqBool (strLe x.1 y.1) true

/-- Python `str.strip()`: remove leading and trailing whitespace.  Used by
`Album.load` on photo captions. -/
def pstrip (s : String) : String :=
  String.mk (((s.data.dropWhile Char.isWhitespace).reverse.dropWhile Char.isWhitespace).reverse)

/-- Outcome of attempting to construct/decode a Photo for a file, modelling
the two exception types album.py catches around Photo construction:
`PermissionError` and `PIL.UnidentifiedImageError`.  `none` means the
construction and the eager image decode both succeed. -/
inductive LoadErr
  | permission
  | unidentified
  deriving DecidableEq, Repr

/-- Photo record: the slice of the Photo collaborator that album.py reads and
writes.  `filename` is the identity key (`photo.filename`), `name` the
display name (`photo.name`, possibly absent), `alt` and `caption` the
metadata dumped to the descriptor, and `cover_path` the designated-cover
marker assigned during `Album.update` (`photo.cover_path`).  The caption
field also stands for `photo.clean_caption`, modelled from the spec:
the descriptor photo list carries (filename, display name, alt, caption). -/
structure Photo where
  filename : String
  name : Option String
  alt : Option String
  caption : String
  cover_path : Option String
  deriving DecidableEq, Repr

/-- One entry of the `photos:` list of the descriptor file. -/
structure PhotoEntry where
  file : String
  name : Option String
  alt : Option String
  caption : String
  deriving DecidableEq, Repr

/-- One entry of the `hashes:` fingerprint table of the descriptor file. -/
structure HashEntry where
  file : String
  hash : Int
  deriving DecidableEq, Repr

/-- The structured content of the album descriptor file written by
`Album.dump` and read back by `Album.load`.  YAML serialization itself is
owned by an external library; we embed the file at the level of the parsed
fields, in the fixed shape given by the spec. -/
structure Descriptor where
  title : Option String
  album_date : Option String
  properties : List (String × String)
  copyright : Option String
  coverimage : Option String
  creation_time : Option String
  modification_time : String
  photos : List PhotoEntry
  hashes : List HashEntry
  deriving DecidableEq, Repr

/-- The filesystem and Photo-collaborator state that `Album.update` consults,
keyed by photo filename (photo paths inside one album are determined by the
filename).
* `photoDirFiles`: the file entries of the album photo subfolder, as
  returned by `os.walk`.
* `fexists f`: `os.path.exists` of the photo original path.
* `fingerprint f`: `hash(photo)` for the photo backed by file `f`; modelled
  from the spec: a deterministic content fingerprint of the file, equal
  across calls while the file content is unchanged.
* `hasSizes f`: `photo.has_sizes()`, whether resize artifacts exist.
* `loadErr f`: whether constructing/decoding a Photo for `f` raises
  `PermissionError` or `UnidentifiedImageError`. -/
structure FS where
  photoDirFiles : List String
  fexists : String → Bool
  fingerprint : String → Int
  hasSizes : String → Bool
  loadErr : String → Option LoadErr

/-- State of the descriptor file and its `.bak` sibling on disk, holding
their structured content when they exist. -/
structure DState where
  albumFileContent : Option Descriptor
  bakContent : Option Descriptor
  deriving DecidableEq, Repr

/-- The slice of the global `settings` singleton that the embedded
operations consult. -/
structure Settings where
  album_file : String
  output_dir : String
  cover_filename : String
  deriving DecidableEq, Repr

/-- The Album object of album.py: scalar fields, the ordered photo list and
the fingerprint table as loaded from the descriptor, plus `cover_path`
(assigned by `Album.load`). -/
structure Album where
  album_dir : Option String
  title : Option String
  album_date : Option String
  properties : Option (List (String × String))
  copyright : Option String
  coverimage : Option String
  creation_time : Option String
  modification_time : Option String
  photos : List Photo
  hashes : List HashEntry
  cover_path : Option String

/-- Existence of the four on-disk objects relevant to `Album.clean`:
the rendered markdown page file (`self.markdown_file`), the rendered bundle
directory (`self.markdown_dir`), the artifact output directory
(`self.output_dir`), and the album descriptor file (`self._album_file`,
which `clean` never inspects). -/
structure CleanFS where
  md_file : Bool
  md_dir : Bool
  out_dir : Bool
  album_file : Bool
  deriving DecidableEq, Repr

/-- Errors that `Album.update` / `Album.dump` raise to the caller:
`noAlbumDir` models the failure of `update` on an album constructed without
a directory (the `os.path.join(self._album_dir, ...)` call); `noAlbumFile`
models the `ValueError` raised by `dump` when `self._album_file is None`. -/
inductive UpdateErr
  | noAlbumDir
  | noAlbumFile
  deriving DecidableEq, Repr

/-- The observable outcome of a completed `Album.update` call: the mutated
album, the filesystem state (resize artifacts created), the list of photos
whose artifacts were regenerated (`to_process`), whether the markdown
output was (re)written, the descriptor content saved (if any), the
descriptor-file state, and whether the run aborted at the uniqueness
guard. -/
structure UpdateResult where
  album : Album
  fs : FS
  rebuilt : List Photo
  rendered : Bool
  saved : Option Descriptor
  ds : DState
  aborted : Bool

/-- `Album.names_unique`: display names of the photos are pairwise distinct,
computed as in the source by comparing the deduplicated name list length
with the photo count. -/
def names_unique (a : Album) : Bool :=
  (a.photos.map Photo.name).dedup.length == a.photos.length

/-- `self._album_file`, set in `Album.__init__`: the descriptor path, present
exactly when the album has a directory. -/
def albumFile (s : Settings) (a : Album) : Option String :=
  a.album_dir.map (fun d => d ++ "/" ++ s.album_file)

/-- `Album.clean`: inspects the markdown file, the markdown bundle directory
and the image output directory; if none exists it is a no-op; otherwise it
asks for confirmation (`confirm` models the answer to `question_yes_no`)
and, when confirmed, removes those of the three that exist.  The album
descriptor file is not inspected or removed. -/
def clean (st : CleanFS) (confirm : Bool) : CleanFS :=
  if !(st.md_file || st.md_dir || st.out_dir) then st
  else if !confirm then st
  else { st with md_file := false, md_dir := false, out_dir := false }

/-- `Album._backup`: if the descriptor file exists, copy its content to the
`.bak` sibling; otherwise do nothing. -/
def backup (ds : DState) : DState :=
  match ds.albumFileContent with
  | none => ds
  | some c => { ds with bakContent := some c }

/-- The descriptor photo-list entry written for one photo by `Album.dump`:
file, name, alt, caption. -/
def toEntry (p : Photo) : PhotoEntry :=
  { file := p.filename, name := p.name, alt := p.alt, caption := p.caption }

/-- The descriptor content written by `Album.dump` at timestamp `t`
(`modtime()`): scalar fields, the property mapping sorted by key, the
creation time preserved and the modification time stamped with `t`, the
photo list in photo order, and the fingerprint table with one freshly
computed `hash(photo)` per photo, in photo order. -/
def mkDescriptor (a : Album) (fs : FS) (t : String) : Descriptor :=
  { title := a.title
    album_date := a.album_date
    properties := (a.properties.getD []).insertionSort pLe
    copyright := a.copyright
    coverimage := a.coverimage
    creation_time := a.creation_time
    modification_time := t
    photos := a.photos.map toEntry
    hashes := a.photos.map (fun p => { file := p.filename, hash := fs.fingerprint p.filename }) }

/-- `Album.dump`: raises when the album has no descriptor path, leaving the
file state untouched; otherwise backs up the existing descriptor and then
overwrites it with the freshly serialized state.  The first component is
the resulting file state, the second the outcome. -/
def dump (s : Settings) (a : Album) (fs : FS) (ds : DState) (t : String) :
    DState × Except UpdateErr Descriptor :=
  match albumFile s a with
  | none => (ds, Except.error UpdateErr.noAlbumFile)
  | some _ =>
    let ds1 := backup ds
    let d := mkDescriptor a fs t
    ({ ds1 with albumFileContent := some d }, Except.ok d)

/-- Photo construction performed by `Album.load` for one descriptor entry:
skipped silently on `PermissionError`, caption stripped of surrounding
whitespace (absent caption reads as the empty string through YAML), and no
cover marker.  Decode errors are not caught at this site in the source
(the `UnidentifiedImageError` handler is commented out) and construction
alone does not decode the image, so only the permission outcome is
consulted. -/
def constructPhoto (fs : FS) (pe : PhotoEntry) : Option Photo :=
  if fs.loadErr pe.file = some LoadErr.permission then none
  else some { filename := pe.file, name := pe.name, alt := pe.alt,
              caption := pstrip pe.caption, cover_path := none }

/-- The photo list built by `Album.load` from the descriptor photo entries:
construct each photo (skipping permission failures), then drop photos with
no display name (logged in the source, not an error). -/
def loadPhotos (fs : FS) (pes : List PhotoEntry) : List Photo :=
  (pes.filterMap (constructPhoto fs)).filter (fun p => p.name.isSome)

/-- `Album.load` on an album directory whose descriptor file exists and holds
`d`: populate the album fields from the parsed descriptor (a properties
mapping with no entries reads back as absent), resolve the photo list, and
set `cover_path` from the settings. -/
def loadAlbum (s : Settings) (dir : String) (d : Descriptor) (fs : FS) : Album :=
  { album_dir := some dir
    title := d.title
    album_date := d.album_date
    properties := if d.properties.isEmpty then none else some d.properties
    copyright := d.copyright
    coverimage := d.coverimage
    creation_time := d.creation_time
    modification_time := some d.modification_time
    photos := loadPhotos fs d.photos
    hashes := d.hashes
    cover_path := some (s.output_dir ++ "/" ++ dir ++ "/" ++ s.cover_filename) }

/-- The candidate filenames of the discovery step of `Album.update`:
directory entries not already in the photo list, sorted
(`missing.sort()`). -/
def discoverOrder (a : Album) (fs : FS) : List String :=
  (fs.photoDirFiles.filter (fun f => !((a.photos.map Photo.filename).contains f))).insertionSort sLe

/-- The Photo constructed by `Album.update` for a discovered file `f`:
`Photo(album_name=self.name, original_path=..., name=f, copyright=...)`.
Alt and caption take the constructor defaults, modelled from the spec as
the neutral values (absent alt, empty caption); the display name is the
filename. -/
def mkNewPhoto (f : String) : Photo :=
  { filename := f, name := some f, alt := none, caption := "", cover_path := none }

/-- The discovery step of `Album.update`: append to the photo list, in
sorted candidate order, a new Photo for every candidate whose construction
and eager decode succeed; candidates raising `PermissionError` or
`UnidentifiedImageError` are silently excluded. -/
def updateDiscover (a : Album) (fs : FS) : List Photo :=
  a.photos ++ ((discoverOrder a fs).filter (fun f => (fs.loadErr f).isNone)).map mkNewPhoto

/-- The pruning step of `Album.update`: remove the photos whose original
path no longer exists. -/
def updatePrune (photos : List Photo) (fs : FS) : List Photo :=
  photos.filter (fun p => fs.fexists p.filename)

/-- The cover-assignment step of `Album.update` for one photo: mark it with
the album cover path when its filename matches the configured cover image,
otherwise explicitly clear the marker. -/
def coverAssign (a : Album) (p : Photo) : Photo :=
  if some p.filename = a.coverimage then { p with cover_path := a.cover_path }
  else { p with cover_path := none }

/-- The cover-assignment step of `Album.update` over the photo list. -/
def updateCovers (a : Album) (photos : List Photo) : List Photo :=
  photos.map (coverAssign a)

/-- The last-known fingerprint of a filename: the first matching entry of
the fingerprint table, as computed by the `next(...)` generator expression
of `Album.update`; absent entries give `none`. -/
def lastKnownHash (hashes : List HashEntry) (f : String) : Option Int :=
  (hashes.find? (fun h => h.file == f)).map HashEntry.hash

/-- The rebuild test of `Album.update`:
`not (p.has_sizes() and (hash(p) == photo_hashes[p]))`.  A stored value of
`None` (absent table entry) compares unequal to the integer fingerprint.
The `photo_hashes` dict of the source, keyed by the photo object, merely
carries each photo its own looked-up table value between the two loops,
so it is embedded as the direct lookup. -/
def needsRebuild (hashes : List HashEntry) (fs : FS) (p : Photo) : Bool :=
  !(fs.hasSizes p.filename &&
    (match lastKnownHash hashes p.filename with
     | some h => fs.fingerprint p.filename == h
     | none => false))

/-- The reconciled photo list of `Album.update`: discovery, then pruning,
then cover assignment. -/
def updatedPhotos (a : Album) (fs : FS) : List Photo :=
  updateCovers a (updatePrune (updateDiscover a fs) fs)

/-- The rebuild set `to_process` of `Album.update`: the surviving photos
that fail the rebuild test.  Each of these has `create_sizes()` called on
it. -/
def updateRebuilt (a : Album) (fs : FS) : List Photo :=
  (updatedPhotos a fs).filter (needsRebuild a.hashes fs)

/-- The album as mutated by a completed `Album.update` (photo list
reconciled; the scalar fields and the fingerprint table attribute are not
touched by `update`). -/
def albumAfterUpdate (a : Album) (fs : FS) : Album :=
  { a with photos := updatedPhotos a fs }

/-- Effect of the rebuild step on the filesystem: `create_sizes()` makes the
resize artifacts of each processed photo exist; nothing else changes. -/
def rebuildFS (fs : FS) (ps : List Photo) : FS :=
  { fs with hasSizes := fun f => (ps.map Photo.filename).contains f || fs.hasSizes f }

/-- The filesystem state after the rebuild step of `Album.update`. -/
def fsAfterUpdate (a : Album) (fs : FS) : FS :=
  rebuildFS fs (updateRebuilt a fs)

/-- The descriptor content saved at the end of a completed `Album.update`
run started at state `(a, fs)` and stamped with time `t`. -/
def savedDescriptor (a : Album) (fs : FS) (t : String) : Descriptor :=
  mkDescriptor (albumAfterUpdate a fs) (fsAfterUpdate a fs) t

/-- `Album.update`: fails on an album without a directory; aborts with no
mutation when display names are not unique; otherwise reconciles the photo
list (discovery, pruning, cover assignment), regenerates artifacts for the
photos failing the rebuild test, rewrites the markdown output, and saves
the descriptor. -/
def update (s : Settings) (a : Album) (fs : FS) (ds : DState) (t : String) :
    Except UpdateErr UpdateResult :=
  match a.album_dir with
  | none => Except.error UpdateErr.noAlbumDir
  | some _ =>
    if names_unique a then
      let a1 := albumAfterUpdate a fs
      let fs1 := fsAfterUpdate a fs
      let pr := dump s a1 fs1 ds t
      match pr.2 with
      | Except.error e => Except.error e
      | Except.ok d =>
        Except.ok { album := a1, fs := fs1, rebuilt := updateRebuilt a fs,
                    rendered := true, saved := some d, ds := pr.1, aborted := false }
    else
      Except.ok { album := a, fs := fs, rebuilt := [], rendered := false,
                  saved := none, ds := ds, aborted := true }

/-!  Properties of the string ordering used by the sorts. -/

theorem charListLe_total : ∀ a b : List Char, charListLe a b = true ∨ charListLe b a = true := by
  intro a
  induction a with
  | nil => intro b; left; rfl
  | cons x xs ih =>
    intro b
    cases b with
    | nil => right; rfl
    | cons y ys =>
      rcases lt_trichotomy x y with h | h | h
      · left; simp [charListLe, h]
      · subst h
        rcases ih ys with h2 | h2
        · left; simp [charListLe, h2]
        · right; simp [charListLe, h2]
      · right; simp [charListLe, h]

theorem charListLe_trans : ∀ a b c : List Char, charListLe a b = true → charListLe b c = true →
    charListLe a c = true := by
  intro a
  induction a with
  | nil => intro b c _ _; rfl
  | cons x xs ih =>
    intro b c hab hbc
    cases b with
    | nil => simp [charListLe] at hab
    | cons y ys =>
      cases c with
      | nil => simp [charListLe] at hbc
      | cons z zs =>
        simp only [charListLe] at hab hbc ⊢
        by_cases hxy : x < y
        · by_cases hyz : y < z
          · simp [lt_trans hxy hyz]
          · by_cases hyz2 : y = z
            · subst hyz2; simp [hxy]
            · simp [hyz, hyz2] at hbc
        · by_cases hxy2 : x = y
          · subst hxy2
            by_cases hyz : x < z
            · simp [hyz]
            · by_cases hyz2 : x = z
              · subst hyz2
                simp only [if_neg hxy, if_pos rfl] at hab hbc ⊢
                exact ih ys zs hab hbc
              · simp [hyz, hyz2] at hbc
          · simp [hxy, hxy2] at hab

instance : IsTotal String sLe := ⟨fun a b => charListLe_total a.data b.data⟩

instance : IsTrans String sLe := ⟨fun a b c => charListLe_trans a.data b.data c.data⟩

instance : IsTotal (String × String) pLe := ⟨fun a b => charListLe_total a.1.data b.1.data⟩

instance : IsTrans (String × String) pLe := ⟨fun a b c => charListLe_trans a.1.data b.1.data c.1.data⟩

/-!  Properties of `pstrip`. -/

theorem dropWhile_dropWhile_self (p : Char → Bool) (l : List Char) :
    (l.dropWhile p).dropWhile p = l.dropWhile p := by
  induction l with
  | nil => rfl
  | cons a t ih =>
    by_cases h : p a = true
    · simp [List.dropWhile, h, ih]
    · simp [List.dropWhile, h]

theorem dropWhile_head_not (p : Char → Bool) (l : List Char) :
    ∀ a t, l.dropWhile p = a :: t → p a = false := by
  induction l with
  | nil => intro a t h; exact absurd h (by simp)
  | cons x xs ih =>
    intro a t h
    by_cases hx : p x = true
    · rw [List.dropWhile_cons_of_pos hx] at h
      exact ih a t h
    · rw [List.dropWhile_cons_of_neg hx] at h
      cases h
      exact eq_false_of_ne_true hx

theorem dropWhile_eq_self_of_head (p : Char → Bool) (l : List Char)
    (h : ∀ a t, l = a :: t → p a = false) : l.dropWhile p = l := by
  cases l with
  | nil => rfl
  | cons a t => exact List.dropWhile_cons_of_neg (by simp [h a t rfl])

theorem pstrip_idem (s : String) : pstrip (pstrip s) = pstrip s := by
  unfold pstrip
  set p := Char.isWhitespace with hp
  set l1 := s.data.dropWhile p with hl1
  set l2 := (l1.reverse.dropWhile p).reverse with hl2
  have hmk : (String.mk l2).data = l2 := rfl
  congr 1
  rw [hmk]
  have hl1fix : l1.dropWhile p = l1 := by
    rw [hl1]; exact dropWhile_dropWhile_self p s.data
  have hstep1 : l2.dropWhile p = l2 := by
    apply dropWhile_eq_self_of_head
    intro a t h
    have hsplit : l1.reverse.takeWhile p ++ l1.reverse.dropWhile p = l1.reverse :=
      List.takeWhile_append_dropWhile p l1.reverse
    have hl1eq : l1 = l2 ++ (l1.reverse.takeWhile p).reverse := by
      have h2 := congrArg List.reverse hsplit
      rw [List.reverse_append, List.reverse_reverse] at h2
      rw [hl2]
      exact h2.symm
    have hl1cons : l1 = a :: (t ++ (l1.reverse.takeWhile p).reverse) := by
      conv_lhs => rw [hl1eq, h]
      rfl
    exact dropWhile_head_not p l1 a _ (by rw [hl1fix]; exact hl1cons)
  rw [hstep1, hl2, List.reverse_reverse, dropWhile_dropWhile_self]

/-!  Sample values used by the concrete witnesses below. -/

/-- A settings value for concrete evaluations. -/
def sampleSettings : Settings :=
  { album_file := "album.yml", output_dir := "out", cover_filename := "cover.jpg" }

/-- A filesystem state for concrete evaluations: no new files, every photo
path exists, artifacts already built, constant fingerprint. -/
def sampleFS : FS :=
  { photoDirFiles := [], fexists := fun _ => true, fingerprint := fun _ => 0,
    hasSizes := fun _ => true, loadErr := fun _ => none }

/-- A descriptor-file state for concrete evaluations. -/
def sampleDS : DState := { albumFileContent := none, bakContent := none }

/-- An album with a directory and no photos, for concrete evaluations. -/
def emptyAlbum : Album :=
  { album_dir := some "alb", title := none, album_date := none, properties := none,
    copyright := none, coverimage := none, creation_time := none, modification_time := none,
    photos := [], hashes := [], cover_path := some "out/alb/cover.jpg" }

/-!  Claim C3: what the confirmed clean operation removes. -/

/-- C3 counterexample: with every path existing and the prompt confirmed,
`clean` leaves the album descriptor file in place, contradicting the claim
that the descriptor file is removed. -/
theorem claim3_counterexample :
    ¬ ((clean { md_file := true, md_dir := true, out_dir := true, album_file := true } true).album_file
        = false) := by
  decide

/-- C3 (amended): the confirmed `clean` operation removes the rendered
markdown page file, the rendered bundle directory and the artifact output
directory, whenever any of them exists and the user confirms; it never
touches the album descriptor file, and it is a no-op without confirmation
or when none of the three paths exists. -/
theorem claim3_clean_removes_outputs (st : CleanFS) (confirm : Bool) :
    (clean st confirm).album_file = st.album_file
    ∧ (confirm = true → (st.md_file || st.md_dir || st.out_dir) = true →
        clean st confirm
          = { md_file := false, md_dir := false, out_dir := false, album_file := st.album_file })
    ∧ (confirm = false → clean st confirm = st)
    ∧ ((st.md_file || st.md_dir || st.out_dir) = false → clean st confirm = st) := by
  refine ⟨?_, ?_, ?_, ?_⟩
  · unfold clean
    by_cases h : (st.md_file || st.md_dir || st.out_dir) = true
    · by_cases hc : confirm = true <;> simp [h, hc]
    · simp [h]
  · intro hc h
    unfold clean
    simp [h, hc]
  · intro hc
    unfold clean
    by_cases h : (st.md_file || st.md_dir || st.out_dir) = true <;> simp [h, hc]
  · intro h
    unfold clean
    simp [h]

/-- C3 witness: concrete run of the amended statement. -/
theorem claim3_witness :
    clean { md_file := true, md_dir := true, out_dir := true, album_file := true } true
      = { md_file := false, md_dir := false, out_dir := false, album_file := true } :=
  (claim3_clean_removes_outputs
    { md_file := true, md_dir := true, out_dir := true, album_file := true } true).2.1 rfl rfl

/-!  Claim C4: the uniqueness guard of update. -/

/-- C4: when two photos share a display name, `update` returns having
performed no mutation: the album (photo list, fingerprint table, cover
markers) is unchanged, the filesystem is unchanged, no photo is rebuilt,
no markdown is rendered, and the descriptor file is not written. -/
theorem claim4_uniqueness_guard (s : Settings) (a : Album) (fs : FS) (ds : DState) (t : String)
    (dir : String) (hdir : a.album_dir = some dir) (h : names_unique a = false) :
    update s a fs ds t = Except.ok
      { album := a, fs := fs, rebuilt := [], rendered := false,
        saved := none, ds := ds, aborted := true } := by
  unfold update
  rw [hdir]
  simp [h]

/-- An album with two photos sharing the display name, for C4. -/
def dupNameAlbum : Album :=
  { emptyAlbum with photos :=
      [ { filename := "a.jpg", name := some "x", alt := none, caption := "", cover_path := none },
        { filename := "b.jpg", name := some "x", alt := none, caption := "", cover_path := none } ] }

/-- C4 witness: concrete aborted run. -/
theorem claim4_witness :
    update sampleSettings dupNameAlbum sampleFS sampleDS "t" = Except.ok
      { album := dupNameAlbum, fs := sampleFS, rebuilt := [], rendered := false,
        saved := none, ds := sampleDS, aborted := true } :=
  claim4_uniqueness_guard sampleSettings dupNameAlbum sampleFS sampleDS "t" "alb" rfl (by decide)

/-!  Claim C5: backup-before-overwrite in dump. -/

/-- C5: on an album with a descriptor path, `dump` first copies the
pre-existing descriptor content (if any) to the `.bak` sibling and then
overwrites the descriptor; when no prior descriptor file exists, the
`.bak` state is left untouched (no backup file is created). -/
theorem claim5_backup_safety (s : Settings) (a : Album) (fs : FS) (ds : DState) (t : String)
    (dir : String) (hdir : a.album_dir = some dir) :
    dump s a fs ds t =
      ({ albumFileContent := some (mkDescriptor a fs t),
         bakContent := match ds.albumFileContent with
                       | some c => some c
                       | none => ds.bakContent },
       Except.ok (mkDescriptor a fs t)) := by
  unfold dump albumFile backup
  rw [hdir]
  cases hds : ds.albumFileContent <;> simp [hds]

/-- A concrete prior descriptor content, for C5. -/
def priorDescriptor : Descriptor :=
  { title := some "T", album_date := none, properties := [], copyright := none,
    coverimage := none, creation_time := none, modification_time := "m0",
    photos := [], hashes := [] }

/-- C5 witness: dumping over an existing descriptor backs up its exact
content. -/
theorem claim5_witness :
    dump sampleSettings emptyAlbum sampleFS
        { albumFileContent := some priorDescriptor, bakContent := none } "t1"
      = ({ albumFileContent := some (mkDescriptor emptyAlbum sampleFS "t1"),
           bakContent := some priorDescriptor },
         Except.ok (mkDescriptor emptyAlbum sampleFS "t1")) :=
  claim5_backup_safety sampleSettings emptyAlbum sampleFS
    { albumFileContent := some priorDescriptor, bakContent := none } "t1" "alb" rfl

/-!  Claim C6: dump requires a descriptor path. -/

/-- C6: `dump` on an album with no descriptor path signals an error with
the file state untouched (nothing written, nothing backed up); with a
path, no such error is raised. -/
theorem claim6_dump_requires_path (s : Settings) (a : Album) (fs : FS) (ds : DState) (t : String) :
    (a.album_dir = none → dump s a fs ds t = (ds, Except.error UpdateErr.noAlbumFile))
    ∧ (a.album_dir ≠ none → ∃ d, (dump s a fs ds t).2 = Except.ok d) := by
  constructor
  · intro h
    unfold dump albumFile
    rw [h]
    rfl
  · intro h
    match hd : a.album_dir with
    | none => exact absurd hd h
    | some dir =>
      exact ⟨mkDescriptor a fs t, by unfold dump albumFile; rw [hd]; rfl⟩

/-- An album constructed without a directory, for C6. -/
def noDirAlbum : Album := { emptyAlbum with album_dir := none }

/-- C6 witness: concrete error with untouched file state. -/
theorem claim6_witness :
    dump sampleSettings noDirAlbum sampleFS sampleDS "t"
      = (sampleDS, Except.error UpdateErr.noAlbumFile) :=
  (claim6_dump_requires_path sampleSettings noDirAlbum sampleFS sampleDS "t").1 rfl

/-!  Claim C8: the pruning step. -/

/-- C8: after the pruning step of `update`, a photo is in the list exactly
when it was there before pruning and its source file exists; photos whose
file is gone are removed.  The step is a total function of the state (its
removal loop cannot fail). -/
theorem claim8_pruning (a : Album) (fs : FS) (p : Photo) :
    p ∈ updatePrune (updateDiscover a fs) fs
      ↔ (p ∈ updateDiscover a fs ∧ fs.fexists p.filename = true) := by
  unfold updatePrune
  simp [List.mem_filter]

/-- A filesystem where only `a.jpg` still exists, for C8. -/
def pruneFS : FS := { sampleFS with fexists := fun f => f == "a.jpg" }

/-- An album tracking one existing and one deleted photo, for C8. -/
def pruneAlbum : Album :=
  { emptyAlbum with photos :=
      [ { filename := "a.jpg", name := some "x", alt := none, caption := "", cover_path := none },
        { filename := "b.jpg", name := some "y", alt := none, caption := "", cover_path := none } ] }

/-- C8 witness: the surviving photo is kept by pruning. -/
theorem claim8_witness :
    { filename := "a.jpg", name := some "x", alt := none, caption := "",
      cover_path := none : Photo } ∈ updatePrune (updateDiscover pruneAlbum pruneFS) pruneFS :=
  (claim8_pruning pruneAlbum pruneFS _).mpr ⟨by decide, by decide⟩

/-!  Claim C9: cover assignment. -/

/-- An album whose descriptor lists the same file twice (with distinct
display names) and designates it as the cover, for the C9 counterexample. -/
def dupFileAlbum : Album :=
  { emptyAlbum with
    photos :=
      [ { filename := "a.jpg", name := some "x", alt := none, caption := "", cover_path := none },
        { filename := "a.jpg", name := some "y", alt := none, caption := "", cover_path := none } ],
    coverimage := some "a.jpg" }

/-- C9 counterexample: when two Photo Records share the filename designated
as cover, the cover-assignment step marks both of them, so more than one
record carries the cover marker. -/
theorem claim9_counterexample :
    ¬ (((updatedPhotos dupFileAlbum sampleFS).filter (fun p => p.cover_path.isSome)).length ≤ 1) := by
  decide

/-- C9 (amended): after the cover-assignment step, a photo carries the cover
marker exactly when its filename equals the configured cover filename, and
every non-matching photo has its marker explicitly cleared; consequently,
when the surviving photos have pairwise distinct filenames, at most one
record is marked. -/
theorem claim9_cover_assignment (a : Album) (fs : FS) (cp : String)
    (hcp : a.cover_path = some cp) :
    (∀ p, p ∈ updatedPhotos a fs →
      p.cover_path = (if some p.filename = a.coverimage then some cp else none))
    ∧ (((updatedPhotos a fs).map Photo.filename).Nodup →
        ((updatedPhotos a fs).filter (fun p => p.cover_path.isSome)).length ≤ 1) := by
  have hmem : ∀ p, p ∈ updatedPhotos a fs →
      p.cover_path = (if some p.filename = a.coverimage then some cp else none) := by
    intro p hp
    unfold updatedPhotos updateCovers at hp
    obtain ⟨q, _, hq⟩ := List.mem_map.mp hp
    subst hq
    unfold coverAssign
    by_cases h : some q.filename = a.coverimage
    · simp [h, hcp]
    · simp [h]
  refine ⟨hmem, ?_⟩
  intro hnd
  match hM : (updatedPhotos a fs).filter (fun p => p.cover_path.isSome) with
  | [] => simp [hM]
  | [x] => simp [hM]
  | x :: y :: rest =>
    exfalso
    have hxmem : x ∈ (updatedPhotos a fs).filter (fun p => p.cover_path.isSome) := by
      rw [hM]; exact List.mem_cons_self _ _
    have hymem : y ∈ (updatedPhotos a fs).filter (fun p => p.cover_path.isSome) := by
      rw [hM]; exact List.mem_cons_of_mem _ (List.mem_cons_self _ _)
    have hx := List.mem_filter.mp hxmem
    have hy := List.mem_filter.mp hymem
    have hxcover : some x.filename = a.coverimage := by
      by_contra hc
      have := hmem x hx.1
      rw [if_neg hc] at this
      rw [this] at hx
      exact absurd hx.2 (by simp)
    have hycover : some y.filename = a.coverimage := by
      by_contra hc
      have := hmem y hy.1
      rw [if_neg hc] at this
      rw [this] at hy
      exact absurd hy.2 (by simp)
    have hxy : x.filename = y.filename := by
      have := hxcover.trans hycover.symm
      exact Option.some.inj this
    have hsub : List.Sublist (x :: y :: rest) (updatedPhotos a fs) := by
      rw [← hM]; exact List.filter_sublist _
    have hnd2 : ((x :: y :: rest).map Photo.filename).Nodup :=
      List.Nodup.sublist (hsub.map Photo.filename) hnd
    simp only [List.map, List.nodup_cons, List.mem_cons] at hnd2
    exact hnd2.1 (Or.inl hxy)

/-- An album with distinct filenames and a matching cover, for the C9
witness. -/
def coverAlbum : Album :=
  { emptyAlbum with
    photos :=
      [ { filename := "a.jpg", name := some "x", alt := none, caption := "", cover_path := none },
        { filename := "b.jpg", name := some "y", alt := none, caption := "", cover_path := none } ],
    coverimage := some "a.jpg" }

/-- C9 witness: with distinct filenames, at most one photo is marked. -/
theorem claim9_witness :
    ((updatedPhotos coverAlbum sampleFS).filter (fun p => p.cover_path.isSome)).length ≤ 1 :=
  (claim9_cover_assignment coverAlbum sampleFS "out/alb/cover.jpg" rfl).2 (by decide)

/-!  Unfolding helpers shared by the claim proofs. -/

/-- On an album with a descriptor path, `dump` backs up and overwrites. -/
theorem dump_ok (s : Settings) (a : Album) (fs : FS) (ds : DState) (t : String)
    (dir : String) (hdir : a.album_dir = some dir) :
    dump s a fs ds t =
      ({ backup ds with albumFileContent := some (mkDescriptor a fs t) },
       Except.ok (mkDescriptor a fs t)) := by
  unfold dump albumFile
  rw [hdir]
  rfl

/-- The result of a completed (non-aborted) `update` run. -/
theorem update_ok (s : Settings) (a : Album) (fs : FS) (ds : DState) (t : String)
    (dir : String) (hdir : a.album_dir = some dir) (hu : names_unique a = true) :
    update s a fs ds t = Except.ok
      { album := albumAfterUpdate a fs, fs := fsAfterUpdate a fs,
        rebuilt := updateRebuilt a fs, rendered := true,
        saved := some (savedDescriptor a fs t),
        ds := { backup ds with albumFileContent := some (savedDescriptor a fs t) },
        aborted := false } := by
  unfold update
  rw [hdir]
  simp only [hu, if_true]
  rw [dump_ok s (albumAfterUpdate a fs) (fsAfterUpdate a fs) ds t dir hdir]
  rfl

/-- The result of an `update` run aborted at the uniqueness guard. -/
theorem update_aborted (s : Settings) (a : Album) (fs : FS) (ds : DState) (t : String)
    (dir : String) (hdir : a.album_dir = some dir) (hu : names_unique a = false) :
    update s a fs ds t = Except.ok
      { album := a, fs := fs, rebuilt := [], rendered := false,
        saved := none, ds := ds, aborted := true } := by
  unfold update
  rw [hdir]
  simp [hu]

/-!  Claim C7: discovery order and per-candidate error handling. -/

/-- C7: the discovery candidates (directory entries not already tracked) are
processed in sorted (lexicographic) order; a candidate whose construction
or decode fails with a permission or unrecognized-image error contributes
no photo (and, the discovery step being a total function, the failure does
not propagate), while every other candidate is appended to the photo
list. -/
theorem claim7_discovery (a : Album) (fs : FS) :
    List.Sorted sLe (discoverOrder a fs)
    ∧ (∀ f, f ∈ discoverOrder a fs
        ↔ (f ∈ fs.photoDirFiles ∧ f ∉ a.photos.map Photo.filename))
    ∧ (∀ f, f ∈ discoverOrder a fs → fs.loadErr f = none →
        mkNewPhoto f ∈ updateDiscover a fs)
    ∧ (∀ f, f ∈ discoverOrder a fs → fs.loadErr f ≠ none →
        ∀ p, p ∈ updateDiscover a fs → p.filename ≠ f) := by
  have hmemiff : ∀ f, f ∈ discoverOrder a fs
      ↔ (f ∈ fs.photoDirFiles ∧ f ∉ a.photos.map Photo.filename) := by
    intro f
    unfold discoverOrder
    rw [List.mem_insertionSort, List.mem_filter]
    simp
  refine ⟨List.sorted_insertionSort sLe _, hmemiff, ?_, ?_⟩
  · intro f hf he
    unfold updateDiscover
    refine List.mem_append.mpr (Or.inr ?_)
    exact List.mem_map_of_mem mkNewPhoto (List.mem_filter.mpr ⟨hf, by simp [he]⟩)
  · intro f hf he p hp hpf
    rcases List.mem_append.mp hp with hold | hnew
    · have : f ∈ a.photos.map Photo.filename := List.mem_map.mpr ⟨p, hold, hpf⟩
      exact ((hmemiff f).mp hf).2 this
    · obtain ⟨g, hg, hgp⟩ := List.mem_map.mp hnew
      have hgf : g = f := by rw [← hpf, ← hgp]; rfl
      have := (List.mem_filter.mp hg).2
      rw [hgf] at this
      exact he (Option.isNone_iff_eq_none.mp this)

/-- A filesystem with two new image files and one unreadable directory
entry, for C7. -/
def discFS : FS :=
  { photoDirFiles := ["c.jpg", "b.jpg", "dir1"], fexists := fun _ => true,
    fingerprint := fun _ => 0, hasSizes := fun _ => false,
    loadErr := fun f => if f == "dir1" then some LoadErr.permission else none }

/-- An album already tracking one photo, for C7. -/
def discAlbum : Album :=
  { emptyAlbum with photos :=
      [ { filename := "a.jpg", name := some "x", alt := none, caption := "", cover_path := none } ] }

/-- C7 witness: a successfully decoded candidate is appended. -/
theorem claim7_witness : mkNewPhoto "b.jpg" ∈ updateDiscover discAlbum discFS :=
  (claim7_discovery discAlbum discFS).2.2.1 "b.jpg" (by decide) (by decide)

/-!  Claim C10: the shape of the dumped descriptor. -/

/-- C10: the descriptor written by `dump` lists the property mapping with
keys in sorted order; its fingerprint table has exactly one entry per
photo, in photo-list order, each holding the photo filename and a freshly
computed fingerprint; and the table written is independent of the
fingerprint table that was loaded into the album. -/
theorem claim10_dump_shape (s : Settings) (a : Album) (fs : FS) (ds : DState) (t : String)
    (dir : String) (hdir : a.album_dir = some dir) :
    (List.Sorted sLe ((mkDescriptor a fs t).properties.map Prod.fst)
     ∧ (mkDescriptor a fs t).hashes
        = a.photos.map (fun p => { file := p.filename, hash := fs.fingerprint p.filename })
     ∧ (mkDescriptor a fs t).photos.map PhotoEntry.file = a.photos.map Photo.filename
     ∧ ∀ hs, mkDescriptor { a with hashes := hs } fs t = mkDescriptor a fs t)
    ∧ ∃ ds1, dump s a fs ds t = (ds1, Except.ok (mkDescriptor a fs t)) := by
  constructor
  · refine ⟨?_, rfl, ?_, fun hs => rfl⟩
    · have hs : List.Sorted pLe ((a.properties.getD []).insertionSort pLe) :=
        List.sorted_insertionSort pLe _
      exact List.Pairwise.map Prod.fst (fun x y h => h) hs
    · unfold mkDescriptor
      rw [List.map_map]
      rfl
  · exact ⟨{ backup ds with albumFileContent := some (mkDescriptor a fs t) },
      dump_ok s a fs ds t dir hdir⟩

/-- An album with an unsorted property mapping, for C10. -/
def propAlbum : Album :=
  { emptyAlbum with properties := some [("b", "2"), ("a", "1")] }

/-- C10 witness: the property keys of the dumped descriptor are sorted. -/
theorem claim10_witness :
    List.Sorted sLe ((mkDescriptor propAlbum sampleFS "t").properties.map Prod.fst) :=
  (claim10_dump_shape sampleSettings propAlbum sampleFS sampleDS "t" "alb" rfl).1.1

/-!  Claim C1: the fingerprint gate of the rebuild set. -/

/-- The spec predicate of claim C1: the freshly computed fingerprint differs
from the last-known fingerprint looked up by filename, an absent table
entry counting as a differing fingerprint. -/
def fingerprintDiffers (hashes : List HashEntry) (fs : FS) (p : Photo) : Prop :=
  ∀ h, lastKnownHash hashes p.filename = some h → fs.fingerprint p.filename ≠ h

/-- C1: a photo surviving reconciliation is in the rebuild set iff it lacks
previously generated resize artifacts or its fresh fingerprint differs
from the last-known fingerprint (the two-part test of the source,
`not (p.has_sizes() and (hash(p) == photo_hashes[p]))`); and the rebuild
set of a completed `update` run is exactly this set over the surviving
photo list. -/
theorem claim1_fingerprint_gating (a : Album) (fs : FS) (p : Photo)
    (hp : p ∈ updatedPhotos a fs) :
    (p ∈ updateRebuilt a fs
      ↔ (fs.hasSizes p.filename = false ∨ fingerprintDiffers a.hashes fs p))
    ∧ (∀ s ds t r, update s a fs ds t = Except.ok r → r.aborted = false →
        (r.rebuilt = updateRebuilt a fs ∧ r.album.photos = updatedPhotos a fs)) := by
  constructor
  · unfold updateRebuilt
    rw [List.mem_filter]
    constructor
    · rintro ⟨-, hnb⟩
      unfold needsRebuild at hnb
      rcases hcase : lastKnownHash a.hashes p.filename with _ | h
      · right
        intro h2 hcontra
        rw [hcase] at hcontra
        exact Option.noConfusion hcontra
      · rw [hcase] at hnb
        by_cases hA : fs.hasSizes p.filename = true
        · right
          intro h2 hh2
          rw [hcase] at hh2
          cases Option.some.inj hh2
          intro heq
          rw [hA] at hnb
          simp [heq] at hnb
        · left
          exact eq_false_of_ne_true hA
    · intro hrhs
      refine ⟨hp, ?_⟩
      unfold needsRebuild
      rcases hrhs with hA | hdiff
      · simp [hA]
      · rcases hcase : lastKnownHash a.hashes p.filename with _ | h
        · simp
        · have hne : fs.fingerprint p.filename ≠ h := hdiff h hcase
          simp [hne]
  · intro s ds t r hr hab
    match hd : a.album_dir with
    | none =>
      rw [update, hd] at hr
      exact Except.noConfusion hr
    | some dir =>
      by_cases hu : names_unique a = true
      · rw [update_ok s a fs ds t dir hd hu] at hr
        cases Except.ok.inj hr
        exact ⟨rfl, rfl⟩
      · rw [update_aborted s a fs ds t dir hd (eq_false_of_ne_true hu)] at hr
        cases Except.ok.inj hr
        exact absurd hab (by simp)

/-- A filesystem where artifacts are missing, for the C1 witness. -/
def gateFS : FS := { sampleFS with hasSizes := fun _ => false }

/-- An album with one tracked photo and no fingerprint table entry, for the
C1 witness. -/
def gateAlbum : Album :=
  { emptyAlbum with photos :=
      [ { filename := "a.jpg", name := some "x", alt := none, caption := "", cover_path := none } ] }

/-- C1 witness: a photo without artifacts is rebuilt. -/
theorem claim1_witness :
    { filename := "a.jpg", name := some "x", alt := none, caption := "",
      cover_path := none : Photo } ∈ updateRebuilt gateAlbum gateFS :=
  (claim1_fingerprint_gating gateAlbum gateFS _ (by decide)).1.mpr (Or.inl (by decide))

/-!  Round-trip analysis of update followed by reload, for claim C2. -/

/-- Reconstructing a photo from its descriptor entry loses the in-memory
cover marker (the descriptor does not persist it). -/
def eraseCover (p : Photo) : Photo := { p with cover_path := none }

/-- Invariant of the photos produced by `Album.load` and by discovery:
constructible without a permission failure, carrying a display name, and
with an already-stripped caption. -/
def goodPhoto (fs : FS) (p : Photo) : Prop :=
  fs.loadErr p.filename ≠ some LoadErr.permission
  ∧ p.name.isSome = true
  ∧ pstrip p.caption = p.caption

theorem coverAssign_filename (a : Album) (p : Photo) :
    (coverAssign a p).filename = p.filename := by
  unfold coverAssign
  by_cases h : some p.filename = a.coverimage <;> simp [h]

theorem coverAssign_name (a : Album) (p : Photo) : (coverAssign a p).name = p.name := by
  unfold coverAssign
  by_cases h : some p.filename = a.coverimage <;> simp [h]

theorem coverAssign_caption (a : Album) (p : Photo) :
    (coverAssign a p).caption = p.caption := by
  unfold coverAssign
  by_cases h : some p.filename = a.coverimage <;> simp [h]

theorem goodPhoto_loadPhotos (fs : FS) (pes : List PhotoEntry) (p : Photo)
    (hp : p ∈ loadPhotos fs pes) : goodPhoto fs p := by
  unfold loadPhotos at hp
  have hp2 := List.mem_filter.mp hp
  obtain ⟨pe, _, hpe⟩ := List.mem_filterMap.mp hp2.1
  unfold constructPhoto at hpe
  by_cases hperm : fs.loadErr pe.file = some LoadErr.permission
  · rw [if_pos hperm] at hpe
    exact Option.noConfusion hpe
  · rw [if_neg hperm] at hpe
    have hpeq := Option.some.inj hpe
    refine ⟨?_, hp2.2, ?_⟩
    · rw [← hpeq]
      exact hperm
    · rw [← hpeq]
      exact pstrip_idem pe.caption

theorem goodPhoto_updatedPhotos (s : Settings) (dir : String) (d : Descriptor) (fs : FS)
    (p : Photo) (hp : p ∈ updatedPhotos (loadAlbum s dir d fs) fs) : goodPhoto fs p := by
  unfold updatedPhotos updateCovers at hp
  obtain ⟨q, hq, hqp⟩ := List.mem_map.mp hp
  have hgq : goodPhoto fs q := by
    unfold updatePrune at hq
    have hq2 := (List.mem_filter.mp hq).1
    rcases List.mem_append.mp hq2 with hold | hnew
    · exact goodPhoto_loadPhotos fs d.photos q hold
    · obtain ⟨g, hg, hgq⟩ := List.mem_map.mp hnew
      have hgnone := (List.mem_filter.mp hg).2
      rw [← hgq]
      refine ⟨?_, rfl, rfl⟩
      show fs.loadErr g ≠ some LoadErr.permission
      rw [Option.isNone_iff_eq_none.mp hgnone]
      exact fun h => Option.noConfusion h
  rw [← hqp]
  refine ⟨?_, ?_, ?_⟩
  · rw [coverAssign_filename]
    exact hgq.1
  · rw [coverAssign_name]
    exact hgq.2.1
  · rw [coverAssign_caption]
    exact hgq.2.2

/-- Loading back the photo entries dumped for a list of good photos
reconstructs the same photos, minus their cover markers. -/
theorem loadPhotos_map_toEntry (fs fs2 : FS) (hle : fs2.loadErr = fs.loadErr)
    (L : List Photo) (hgood : ∀ p, p ∈ L → goodPhoto fs p) :
    loadPhotos fs2 (L.map toEntry) = L.map eraseCover := by
  induction L with
  | nil => rfl
  | cons p t ih =>
    have hg := hgood p (List.mem_cons_self p t)
    have hrest : ∀ q, q ∈ t → goodPhoto fs q := fun q hq => hgood q (List.mem_cons_of_mem p hq)
    have hcp : constructPhoto fs2 (toEntry p) = some (eraseCover p) := by
      unfold constructPhoto toEntry eraseCover
      rw [hle]
      rw [if_neg hg.1]
      rw [hg.2.2]
    unfold loadPhotos at ih ⊢
    rw [List.map_cons, List.filterMap_cons, hcp, List.filter_cons]
    have hname : (eraseCover p).name.isSome = true := hg.2.1
    rw [if_pos hname, ih hrest, List.map_cons]

/-- If a directory entry decodes successfully but backs no photo surviving
the first run, then its file does not exist (it was pruned). -/
theorem no_missed_existing (s : Settings) (dir : String) (d : Descriptor) (fs : FS)
    (f : String) (hdirf : f ∈ fs.photoDirFiles) (hle : (fs.loadErr f).isNone = true)
    (hnot : ∀ p, p ∈ updatedPhotos (loadAlbum s dir d fs) fs → p.filename ≠ f) :
    fs.fexists f = false := by
  by_contra hex
  have hex2 : fs.fexists f = true := by
    cases hfe : fs.fexists f
    · exact absurd hfe hex
    · rfl
  have hwit : ∃ q, q ∈ updateDiscover (loadAlbum s dir d fs) fs ∧ q.filename = f := by
    by_cases hin : f ∈ (loadAlbum s dir d fs).photos.map Photo.filename
    · obtain ⟨q, hq, hqf⟩ := List.mem_map.mp hin
      exact ⟨q, List.mem_append.mpr (Or.inl hq), hqf⟩
    · have hforder : f ∈ discoverOrder (loadAlbum s dir d fs) fs := by
        unfold discoverOrder
        rw [List.mem_insertionSort, List.mem_filter]
        refine ⟨hdirf, ?_⟩
        simp [hin]
      refine ⟨mkNewPhoto f, List.mem_append.mpr (Or.inr ?_), rfl⟩
      exact List.mem_map_of_mem mkNewPhoto (List.mem_filter.mpr ⟨hforder, by simp [hle]⟩)
  obtain ⟨q, hq, hqf⟩ := hwit
  have hq2 : q ∈ updatePrune (updateDiscover (loadAlbum s dir d fs) fs) fs := by
    unfold updatePrune
    refine List.mem_filter.mpr ⟨hq, ?_⟩
    rw [hqf]
    exact hex2
  have hq3 : coverAssign (loadAlbum s dir d fs) q
      ∈ updatedPhotos (loadAlbum s dir d fs) fs := by
    unfold updatedPhotos updateCovers
    exact List.mem_map_of_mem _ hq2
  refine hnot _ hq3 ?_
  rw [coverAssign_filename]
  exact hqf

/-- Every photo surviving reconciliation has an existing source file. -/
theorem updatedPhotos_fexists (a : Album) (fs : FS) (p : Photo)
    (hp : p ∈ updatedPhotos a fs) : fs.fexists p.filename = true := by
  unfold updatedPhotos updateCovers at hp
  obtain ⟨q, hq, hqp⟩ := List.mem_map.mp hp
  unfold updatePrune at hq
  have hq2 := (List.mem_filter.mp hq).2
  rw [← hqp, coverAssign_filename]
  exact hq2

/-- Looking up a filename in a freshly written fingerprint table returns the
fingerprint of that filename, provided some listed photo carries it. -/
theorem lastKnownHash_map_fresh (g : String → Int) (L : List Photo) (f : String)
    (hf : ∃ q, q ∈ L ∧ q.filename = f) :
    lastKnownHash (L.map (fun q => { file := q.filename, hash := g q.filename })) f
      = some (g f) := by
  induction L with
  | nil =>
    obtain ⟨q, hq, _⟩ := hf
    exact absurd hq (List.not_mem_nil q)
  | cons q t ih =>
    unfold lastKnownHash at ih ⊢
    by_cases h : q.filename = f
    · rw [List.map_cons, List.find?_cons_of_pos _ (by simp [h])]
      simp [h]
    · rw [List.map_cons, List.find?_cons_of_neg _ (by simp [h])]
      refine ih ?_
      obtain ⟨q2, hq2, hq2f⟩ := hf
      rcases List.mem_cons.mp hq2 with heq | hmem
      · exact absurd (heq ▸ hq2f) h
      · exact ⟨q2, hmem, hq2f⟩

/-- The album as a second `update` run sees it: loaded from the descriptor
saved by a first run over `(loadAlbum s dir d0 fs, fs)`, against the
filesystem left by that run. -/
def rerunAlbum (s : Settings) (dir : String) (d0 : Descriptor) (fs : FS) (t1 : String) : Album :=
  loadAlbum s dir (savedDescriptor (loadAlbum s dir d0 fs) fs t1)
    (fsAfterUpdate (loadAlbum s dir d0 fs) fs)

/-- With no filesystem change, the second run reconciles to exactly the
photo list of the first run. -/
theorem reload_updatedPhotos (s : Settings) (dir : String) (d0 : Descriptor) (fs : FS)
    (t1 : String) :
    updatedPhotos (rerunAlbum s dir d0 fs t1) (fsAfterUpdate (loadAlbum s dir d0 fs) fs)
      = updatedPhotos (loadAlbum s dir d0 fs) fs := by
  have hphotos : (rerunAlbum s dir d0 fs t1).photos
      = (updatedPhotos (loadAlbum s dir d0 fs) fs).map eraseCover := by
    show loadPhotos (fsAfterUpdate (loadAlbum s dir d0 fs) fs)
        ((updatedPhotos (loadAlbum s dir d0 fs) fs).map toEntry)
      = (updatedPhotos (loadAlbum s dir d0 fs) fs).map eraseCover
    exact loadPhotos_map_toEntry fs (fsAfterUpdate (loadAlbum s dir d0 fs) fs) rfl
      (updatedPhotos (loadAlbum s dir d0 fs) fs)
      (fun p hp => goodPhoto_updatedPhotos s dir d0 fs p hp)
  have hprune : updatePrune
        (updateDiscover (rerunAlbum s dir d0 fs t1) (fsAfterUpdate (loadAlbum s dir d0 fs) fs))
        (fsAfterUpdate (loadAlbum s dir d0 fs) fs)
      = (updatedPhotos (loadAlbum s dir d0 fs) fs).map eraseCover := by
    unfold updateDiscover updatePrune
    rw [List.filter_append]
    have h1 : List.filter
        (fun p => (fsAfterUpdate (loadAlbum s dir d0 fs) fs).fexists p.filename)
        (rerunAlbum s dir d0 fs t1).photos
        = (updatedPhotos (loadAlbum s dir d0 fs) fs).map eraseCover := by
      rw [hphotos]
      apply List.filter_eq_self.mpr
      intro p hp
      obtain ⟨q, hq, hqp⟩ := List.mem_map.mp hp
      rw [← hqp]
      show fs.fexists (eraseCover q).filename = true
      show fs.fexists q.filename = true
      exact updatedPhotos_fexists (loadAlbum s dir d0 fs) fs q hq
    have h2 : List.filter
        (fun p => (fsAfterUpdate (loadAlbum s dir d0 fs) fs).fexists p.filename)
        ((List.filter (fun f => ((fsAfterUpdate (loadAlbum s dir d0 fs) fs).loadErr f).isNone)
          (discoverOrder (rerunAlbum s dir d0 fs t1) (fsAfterUpdate (loadAlbum s dir d0 fs) fs))).map
          mkNewPhoto)
        = [] := by
      apply List.filter_eq_nil_iff.mpr
      intro p hp
      obtain ⟨g, hg, hgp⟩ := List.mem_map.mp hp
      have hgd := List.mem_filter.mp hg
      have hgorder := hgd.1
      unfold discoverOrder at hgorder
      rw [List.mem_insertionSort, List.mem_filter] at hgorder
      have hgdir : g ∈ fs.photoDirFiles := hgorder.1
      have hgnotin : g ∉ (rerunAlbum s dir d0 fs t1).photos.map Photo.filename := by
        have hn := hgorder.2
        simpa using hn
      have hnotP1 : ∀ p2, p2 ∈ updatedPhotos (loadAlbum s dir d0 fs) fs → p2.filename ≠ g := by
        intro p2 hp2 hp2f
        apply hgnotin
        rw [hphotos]
        refine List.mem_map.mpr ⟨eraseCover p2, List.mem_map_of_mem _ hp2, ?_⟩
        show p2.filename = g
        exact hp2f
      have hex := no_missed_existing s dir d0 fs g hgdir hgd.2 hnotP1
      rw [← hgp]
      show ¬ (fs.fexists (mkNewPhoto g).filename = true)
      show ¬ (fs.fexists g = true)
      rw [hex]
      simp
    rw [h1, h2, List.append_nil]
  show updateCovers (rerunAlbum s dir d0 fs t1)
      (updatePrune
        (updateDiscover (rerunAlbum s dir d0 fs t1) (fsAfterUpdate (loadAlbum s dir d0 fs) fs))
        (fsAfterUpdate (loadAlbum s dir d0 fs) fs))
    = updatedPhotos (loadAlbum s dir d0 fs) fs
  rw [hprune]
  have hkey : ∀ q, coverAssign (rerunAlbum s dir d0 fs t1)
      (eraseCover (coverAssign (loadAlbum s dir d0 fs) q))
      = coverAssign (loadAlbum s dir d0 fs) q := by
    intro q
    have hci : (rerunAlbum s dir d0 fs t1).coverimage = (loadAlbum s dir d0 fs).coverimage := rfl
    have hcp : (rerunAlbum s dir d0 fs t1).cover_path = (loadAlbum s dir d0 fs).cover_path := rfl
    unfold coverAssign eraseCover
    by_cases h : some q.filename = (loadAlbum s dir d0 fs).coverimage
    · simp only [hci, hcp]
      rw [if_pos h]
      simp only []
      rw [if_pos (by simpa using h)]
    · simp only [hci, hcp]
      rw [if_neg h]
      simp only []
      rw [if_neg (by simpa using h)]
  show ((updatePrune (updateDiscover (loadAlbum s dir d0 fs) fs) fs).map
      (coverAssign (loadAlbum s dir d0 fs)) |>.map eraseCover).map
      (coverAssign (rerunAlbum s dir d0 fs t1))
    = (updatePrune (updateDiscover (loadAlbum s dir d0 fs) fs) fs).map
      (coverAssign (loadAlbum s dir d0 fs))
  rw [List.map_map, List.map_map]
  apply List.map_congr_left
  intro q _
  exact hkey q

/-- With no filesystem change, every photo surviving the second run has its
artifacts present and a matching stored fingerprint: the second rebuild
set is empty. -/
theorem reload_rebuilt_nil (s : Settings) (dir : String) (d0 : Descriptor) (fs : FS)
    (t1 : String) :
    updateRebuilt (rerunAlbum s dir d0 fs t1) (fsAfterUpdate (loadAlbum s dir d0 fs) fs) = [] := by
  unfold updateRebuilt
  rw [reload_updatedPhotos s dir d0 fs t1]
  apply List.filter_eq_nil_iff.mpr
  intro p hp
  have hlast : lastKnownHash (rerunAlbum s dir d0 fs t1).hashes p.filename
      = some ((fsAfterUpdate (loadAlbum s dir d0 fs) fs).fingerprint p.filename) := by
    show lastKnownHash
        ((updatedPhotos (loadAlbum s dir d0 fs) fs).map
          (fun q => { file := q.filename,
                      hash := (fsAfterUpdate (loadAlbum s dir d0 fs) fs).fingerprint q.filename }))
        p.filename
      = some ((fsAfterUpdate (loadAlbum s dir d0 fs) fs).fingerprint p.filename)
    exact lastKnownHash_map_fresh _ _ _ ⟨p, hp, rfl⟩
  unfold needsRebuild
  rw [hlast]
  have hsz : (fsAfterUpdate (loadAlbum s dir d0 fs) fs).hasSizes p.filename = true := by
    show (((updateRebuilt (loadAlbum s dir d0 fs) fs).map Photo.filename).contains p.filename
        || fs.hasSizes p.filename) = true
    cases hA : fs.hasSizes p.filename
    · have hnb : needsRebuild (loadAlbum s dir d0 fs).hashes fs p = true := by
        unfold needsRebuild
        rw [hA]
        rfl
      have hmem : p ∈ updateRebuilt (loadAlbum s dir d0 fs) fs := by
        unfold updateRebuilt
        exact List.mem_filter.mpr ⟨hp, hnb⟩
      have hfmem : p.filename ∈ (updateRebuilt (loadAlbum s dir d0 fs) fs).map Photo.filename :=
        List.mem_map_of_mem _ hmem
      simp [hfmem]
    · simp
  rw [hsz]
  simp

/-- Two descriptors with equal components are equal. -/
theorem descriptor_ext (x y : Descriptor) (h1 : x.title = y.title)
    (h2 : x.album_date = y.album_date) (h3 : x.properties = y.properties)
    (h4 : x.copyright = y.copyright) (h5 : x.coverimage = y.coverimage)
    (h6 : x.creation_time = y.creation_time)
    (h7 : x.modification_time = y.modification_time)
    (h8 : x.photos = y.photos) (h9 : x.hashes = y.hashes) : x = y := by
  cases x
  cases y
  simp only [] at h1 h2 h3 h4 h5 h6 h7 h8 h9
  rw [h1, h2, h3, h4, h5, h6, h7, h8, h9]

/-- With no filesystem change, the descriptor saved by the second run equals
the one saved by the first run, except for the modification timestamp. -/
theorem reload_savedDescriptor (s : Settings) (dir : String) (d0 : Descriptor) (fs : FS)
    (t1 t2 : String) :
    savedDescriptor (rerunAlbum s dir d0 fs t1) (fsAfterUpdate (loadAlbum s dir d0 fs) fs) t2
      = { savedDescriptor (loadAlbum s dir d0 fs) fs t1 with modification_time := t2 } := by
  have hprops : ((if (((loadAlbum s dir d0 fs).properties.getD []).insertionSort pLe).isEmpty = true
        then none
        else some (((loadAlbum s dir d0 fs).properties.getD []).insertionSort pLe)).getD
          []).insertionSort pLe
      = ((loadAlbum s dir d0 fs).properties.getD []).insertionSort pLe := by
    by_cases he : (((loadAlbum s dir d0 fs).properties.getD []).insertionSort pLe).isEmpty = true
    · rw [if_pos he]
      have hnil : ((loadAlbum s dir d0 fs).properties.getD []).insertionSort pLe = [] := by
        rwa [List.isEmpty_iff] at he
      rw [hnil]
      rfl
    · rw [if_neg he]
      show (((loadAlbum s dir d0 fs).properties.getD []).insertionSort pLe).insertionSort pLe
        = ((loadAlbum s dir d0 fs).properties.getD []).insertionSort pLe
      exact List.Sorted.insertionSort_eq (List.sorted_insertionSort pLe _)
  exact descriptor_ext _ _ rfl rfl hprops rfl rfl rfl rfl
    (congrArg (fun L => L.map toEntry) (reload_updatedPhotos s dir d0 fs t1))
    (congrArg
      (fun L => L.map
        (fun p => ({ file := p.filename, hash := fs.fingerprint p.filename } : HashEntry)))
      (reload_updatedPhotos s dir d0 fs t1))

/-!  Claim C2: idempotence of update. -/

/-- The descriptor saved by an `update` outcome, if any. -/
def savedOf (e : Except UpdateErr UpdateResult) : Option Descriptor :=
  match e with
  | Except.ok r => r.saved
  | Except.error _ => none

/-- A descriptor tracking `a.jpg` under the display name `b.jpg`, for the C2
counterexample. -/
def cexD0 : Descriptor :=
  { title := none, album_date := none, properties := [], copyright := none,
    coverimage := none, creation_time := none, modification_time := "m0",
    photos := [ { file := "a.jpg", name := some "b.jpg", alt := none, caption := "" } ],
    hashes := [] }

/-- A photo folder containing `a.jpg` and a new file `b.jpg`, for the C2
counterexample. -/
def cexFS : FS :=
  { photoDirFiles := ["a.jpg", "b.jpg"], fexists := fun _ => true,
    fingerprint := fun _ => 0, hasSizes := fun _ => false, loadErr := fun _ => none }

/-- C2 counterexample: the first run saves a descriptor, but discovery gave
the new photo `b.jpg` a display name colliding with the tracked photo's
display name, so the second run trips the uniqueness guard and saves
nothing — there is no second saved descriptor at all. -/
theorem claim2_counterexample :
    (savedOf (update sampleSettings (loadAlbum sampleSettings "alb" cexD0 cexFS) cexFS
        sampleDS "t1")).isSome = true
    ∧ savedOf (update sampleSettings (rerunAlbum sampleSettings "alb" cexD0 cexFS "t1")
        (fsAfterUpdate (loadAlbum sampleSettings "alb" cexD0 cexFS) cexFS) sampleDS "t2")
      = none := by
  constructor
  · decide
  · decide

/-- C2 (amended): running `update` twice in succession with no filesystem
changes between the runs — the second run loading the album back from the
descriptor saved by the first — rebuilds nothing on the second run and
saves a second descriptor identical to the first except for the
modification timestamp, provided the display names are unique at the
start of each run (discovery can violate uniqueness for the second run,
in which case it aborts without saving). -/
theorem claim2_idempotence (s : Settings) (dir : String) (d0 : Descriptor) (fs : FS)
    (ds ds2 : DState) (t1 t2 : String)
    (hu1 : names_unique (loadAlbum s dir d0 fs) = true)
    (hu2 : names_unique (rerunAlbum s dir d0 fs t1) = true) :
    (update s (loadAlbum s dir d0 fs) fs ds t1 = Except.ok
      { album := albumAfterUpdate (loadAlbum s dir d0 fs) fs,
        fs := fsAfterUpdate (loadAlbum s dir d0 fs) fs,
        rebuilt := updateRebuilt (loadAlbum s dir d0 fs) fs,
        rendered := true,
        saved := some (savedDescriptor (loadAlbum s dir d0 fs) fs t1),
        ds := { backup ds with
                albumFileContent := some (savedDescriptor (loadAlbum s dir d0 fs) fs t1) },
        aborted := false })
    ∧ updateRebuilt (rerunAlbum s dir d0 fs t1) (fsAfterUpdate (loadAlbum s dir d0 fs) fs) = []
    ∧ savedDescriptor (rerunAlbum s dir d0 fs t1) (fsAfterUpdate (loadAlbum s dir d0 fs) fs) t2
      = { savedDescriptor (loadAlbum s dir d0 fs) fs t1 with modification_time := t2 }
    ∧ update s (rerunAlbum s dir d0 fs t1) (fsAfterUpdate (loadAlbum s dir d0 fs) fs) ds2 t2
      = Except.ok
      { album := albumAfterUpdate (rerunAlbum s dir d0 fs t1)
          (fsAfterUpdate (loadAlbum s dir d0 fs) fs),
        fs := fsAfterUpdate (rerunAlbum s dir d0 fs t1)
          (fsAfterUpdate (loadAlbum s dir d0 fs) fs),
        rebuilt := [],
        rendered := true,
        saved := some { savedDescriptor (loadAlbum s dir d0 fs) fs t1 with
                        modification_time := t2 },
        ds := { backup ds2 with
                albumFileContent := some { savedDescriptor (loadAlbum s dir d0 fs) fs t1 with
                                           modification_time := t2 } },
        aborted := false } := by
  refine ⟨update_ok s (loadAlbum s dir d0 fs) fs ds t1 dir rfl hu1,
    reload_rebuilt_nil s dir d0 fs t1,
    reload_savedDescriptor s dir d0 fs t1 t2, ?_⟩
  rw [update_ok s (rerunAlbum s dir d0 fs t1) (fsAfterUpdate (loadAlbum s dir d0 fs) fs)
    ds2 t2 dir rfl hu2]
  rw [reload_rebuilt_nil s dir d0 fs t1, reload_savedDescriptor s dir d0 fs t1 t2]

/-- A descriptor tracking one photo with a name that cannot collide, for the
C2 witness. -/
def w2d0 : Descriptor :=
  { title := none, album_date := none, properties := [], copyright := none,
    coverimage := none, creation_time := some "c0", modification_time := "m0",
    photos := [ { file := "a.jpg", name := some "x", alt := none, caption := "" } ],
    hashes := [] }

/-- A photo folder with the tracked file and one new file, for the C2
witness. -/
def w2fs : FS :=
  { photoDirFiles := ["b.jpg", "a.jpg"], fexists := fun _ => true,
    fingerprint := fun _ => 7, hasSizes := fun _ => false, loadErr := fun _ => none }

/-- C2 witness: concrete double run with zero second-run rebuilds and a
second descriptor equal to the first except the timestamp. -/
theorem claim2_witness :
    updateRebuilt (rerunAlbum sampleSettings "alb" w2d0 w2fs "t1")
        (fsAfterUpdate (loadAlbum sampleSettings "alb" w2d0 w2fs) w2fs) = []
    ∧ savedDescriptor (rerunAlbum sampleSettings "alb" w2d0 w2fs "t1")
        (fsAfterUpdate (loadAlbum sampleSettings "alb" w2d0 w2fs) w2fs) "t2"
      = { savedDescriptor (loadAlbum sampleSettings "alb" w2d0 w2fs) w2fs "t1" with
          modification_time := "t2" } :=
  ⟨(claim2_idempotence sampleSettings "alb" w2d0 w2fs sampleDS sampleDS "t1" "t2"
      (by decide) (by decide)).2.1,
   (claim2_idempotence sampleSettings "alb" w2d0 w2fs sampleDS sampleDS "t1" "t2"
      (by decide) (by decide)).2.2.1⟩

end HugoPhotoSwipe
